import Mathlib

/-!
Shallow embedding of `src/types/input/tablet_pad.rs` from `wlroots-rs`:
a safe-handle lifetime-tracking mechanism built from `Rc<AtomicBool>`
liveliness tokens, `Weak<AtomicBool>` observing handles, and a boolean
borrow lock.

The heap of liveliness tokens is made explicit as a `State`: slot `some b`
means the token cell is alive (its strong `Rc` count is nonzero) and its
atomic boolean payload is `b`; slot `none` means the last strong reference
was dropped and the cell is deallocated.  Every Rust method that touches a
token becomes a function that threads this `State`.  Raw pointers are
opaque `Nat` values; this layer never dereferences them.
-/

/-- Model of `errors::HandleErr` — the two recoverable error kinds. -/
inductive HandleErr where
  | AlreadyDropped
  | AlreadyBorrowed
deriving DecidableEq, Repr

/-- Model of `wlroots_sys::wlr_input_device_type` — the discriminant set for input
devices. -/
inductive wlr_input_device_type where
  | WLR_INPUT_DEVICE_KEYBOARD
  | WLR_INPUT_DEVICE_POINTER
  | WLR_INPUT_DEVICE_TOUCH
  | WLR_INPUT_DEVICE_TABLET_TOOL
  | WLR_INPUT_DEVICE_TABLET_PAD
deriving DecidableEq, Repr

/-- A `*mut wlr_input_device` together with the fields this module reads:
the type discriminant and the `__bindgen_anon_1.tablet_pad` union member.
`addr` is the pointer value itself. -/
structure wlr_input_device where
  type_ : wlr_input_device_type
  tablet_pad : Nat
  addr : Nat
deriving DecidableEq, Repr

/-- Model of `InputDevice` wraps a `*mut wlr_input_device`; only the pointer value
is relevant at this layer. -/
structure InputDevice where
  device : Nat
deriving DecidableEq, Repr

/-- Model of `InputDevice::from_ptr`. -/
def InputDevice.from_ptr (p : Nat) : InputDevice := ⟨p⟩

/-- Model of `InputDevice::clone` — copies the pointer. -/
def InputDevice.clone (d : InputDevice) : InputDevice := d

/-- The heap of liveliness tokens (`Rc<AtomicBool>` cells).  Token ids
index the list; fresh tokens are appended. -/
structure State where
  tokens : List (Option Bool)
deriving DecidableEq, Repr

/-- Read a token's lock payload: `some b` when the token is alive with
payload `b`, `none` when the token is deallocated or was never allocated. -/
def State.getLock (s : State) (id : Nat) : Option Bool :=
  match s.tokens[id]? with
  | some (some b) => some b
  | _ => none

/-- Model of `AtomicBool::store` through a strong or weak-upgraded reference; only
ever invoked on an alive token. -/
def State.setLock (s : State) (id : Nat) (b : Bool) : State :=
  ⟨s.tokens.set id (some b)⟩

/-- Deallocation of a token cell when its last strong `Rc` drops. -/
def State.killToken (s : State) (id : Nat) : State :=
  ⟨s.tokens.set id none⟩

/-- Model of `Rc::new(AtomicBool::new(false))` — allocate a fresh token, not
locked, returning its id. -/
def State.alloc (s : State) : Nat × State :=
  (s.tokens.length, ⟨s.tokens ++ [some false]⟩)

/-- Model of `Weak::upgrade` on a handle's weak reference: yields the token id when
the token cell is still alive, `none` otherwise.  A `handle` of `none`
models `Weak::new()`, which can never upgrade. -/
def State.weakUpgrade (s : State) (h : Option Nat) : Option Nat :=
  match h with
  | none => none
  | some id =>
    match s.getLock id with
    | some _ => some id
    | none => none

/-- Model of `TabletPad`: `liveliness` is `some id` for a root wrapper owning token
`id`, `none` for a derived wrapper produced by `upgrade`. -/
structure TabletPad where
  liveliness : Option Nat
  device : InputDevice
  pad : Nat
deriving DecidableEq, Repr

/-- Model of `TabletPadHandle`: `handle` is the weak observation of the token
(`none` models `Weak::new()`), `device` and `pad` are cached copies. -/
structure TabletPadHandle where
  handle : Option Nat
  device : InputDevice
  pad : Nat
deriving DecidableEq, Repr

/-- Model of `TabletPad::new_from_input_device`: matches on the discriminant; on
`WLR_INPUT_DEVICE_TABLET_PAD` allocates a fresh token (payload `false`)
and returns the root wrapper, otherwise returns `None` with the heap
untouched. -/
def TabletPad.new_from_input_device (s : State) (device : wlr_input_device) :
    Option TabletPad × State :=
  match device.type_ with
  | .WLR_INPUT_DEVICE_TABLET_PAD =>
    let pad := device.tablet_pad
    let (id, s') := s.alloc
    (some { liveliness := some id,
            device := InputDevice.from_ptr device.addr,
            pad := pad }, s')
  | _ => (none, s)

/-- Model of `TabletPad::input_device` — unconditional field access. -/
def TabletPad.input_device (p : TabletPad) : InputDevice :=
  p.device

/-- Model of `TabletPadHandle::input_device`: re-checks token liveness via
`Weak::upgrade`; `AlreadyDropped` when the token is gone. -/
def TabletPadHandle.input_device (s : State) (h : TabletPadHandle) :
    Except HandleErr InputDevice :=
  match s.weakUpgrade h.handle with
  | some _ => .ok h.device
  | none => .error .AlreadyDropped

/-- Model of `TabletPadHandle::as_ptr`. -/
def TabletPadHandle.as_ptr (h : TabletPadHandle) : Nat :=
  h.pad

/-- Model of `TabletPad::from_handle`: builds a derived wrapper (`liveliness:
None`), cloning the device reference obtained from the handle's checked
accessor and copying the raw pointer. -/
def TabletPad.from_handle (s : State) (h : TabletPadHandle) :
    Except HandleErr TabletPad :=
  match TabletPadHandle.input_device s h with
  | .error e => .error e
  | .ok dev => .ok { liveliness := none, device := dev.clone, pad := h.as_ptr }

/-- Model of `TabletPad::weak_reference`: downgrade a root wrapper to a handle.
The Rust panics (`expect`) on a derived wrapper (`liveliness` `None`);
the panic is modelled as `none`. -/
def TabletPad.weak_reference (p : TabletPad) : Option TabletPadHandle :=
  match p.liveliness with
  | none => none
  | some id =>
    some { handle := some id, device := p.device.clone, pad := p.pad }

/-- State effect of `impl Drop for TabletPad` together with the implicit
drop of the `liveliness` field.  The `drop` body itself only logs; the
token cell dies because a root wrapper holds the only strong `Rc` to it
(`upgrade` deliberately does not retain its temporary strong reference).
A derived wrapper (`liveliness` `None`) releases nothing. -/
def TabletPad.drop (s : State) (p : TabletPad) : State :=
  match p.liveliness with
  | none => s
  | some id => s.killToken id

/-- Model of `TabletPadHandle::new` — `Weak::new()` plus null pointers. -/
def TabletPadHandle.new : TabletPadHandle :=
  { handle := none, device := InputDevice.from_ptr 0, pad := 0 }

/-- Model of `impl Default for TabletPadHandle`. -/
def TabletPadHandle.default : TabletPadHandle :=
  TabletPadHandle.new

/-- Model of `impl Clone for TabletPadHandle`. -/
def TabletPadHandle.clone (h : TabletPadHandle) : TabletPadHandle :=
  { pad := h.pad, handle := h.handle, device := h.device.clone }

/-- Model of `TabletPadHandle::upgrade`: `Weak::upgrade` (else `AlreadyDropped`),
build the derived wrapper, check the lock (`AlreadyBorrowed` when already
`true`), else store `true` and return the wrapper. -/
def TabletPadHandle.upgrade (s : State) (h : TabletPadHandle) :
    Except HandleErr TabletPad × State :=
  match s.weakUpgrade h.handle with
  | none => (.error .AlreadyDropped, s)
  | some id =>
    match TabletPad.from_handle s h with
    | .error e => (.error e, s)
    | .ok pad =>
      if s.getLock id = some true then
        (.error .AlreadyBorrowed, s)
      else
        (.ok pad, s.setLock id true)

/-- Result of `TabletPadHandle::run`: a normal result, a handle error
propagated from `upgrade`, a re-raised caller panic (opaque payload `Nat`,
carried by `resume_unwind` unchanged), or the fatal
"Lock in incorrect state!" panic from the tamper sanity check. -/
inductive RunResult (R : Type) where
  | ok : R → RunResult R
  | handleErr : HandleErr → RunResult R
  | panicked : Nat → RunResult R
  | lockStatePanic : RunResult R
deriving DecidableEq, Repr

/-- Model of `TabletPadHandle::run`.  The caller's closure receives the derived
wrapper and the current heap and yields either a normal result or a panic
payload (captured by `catch_unwind`), plus the heap as it left it (the
closure may call back into this module, e.g. drop the root wrapper).
After the closure: re-upgrade the weak reference; if the token is gone,
skip the sanity check and release; otherwise the lock must still be
`true` (else the fatal panic) and is stored back to `false`; finally the
captured panic is re-raised or the result returned as `Ok`. -/
def TabletPadHandle.run {R : Type} (s : State) (h : TabletPadHandle)
    (runner : TabletPad → State → Except Nat R × State) :
    RunResult R × State :=
  match TabletPadHandle.upgrade s h with
  | (.error e, s') => (.handleErr e, s')
  | (.ok pad, s1) =>
    let (res, s2) := runner pad s1
    match s2.weakUpgrade h.handle with
    | none =>
      match res with
      | .ok r => (.ok r, s2)
      | .error p => (.panicked p, s2)
    | some id =>
      if s2.getLock id = some true then
        match res with
        | .ok r => (.ok r, s2.setLock id false)
        | .error p => (.panicked p, s2.setLock id false)
      else
        (.lockStatePanic, s2)

/-- A token id whose cell was allocated and has since been deallocated
(the weak references to it are dangling). -/
def State.deadToken (s : State) (id : Nat) : Prop :=
  s.tokens[id]? = some none

/-- The primitive mutations this module ever performs on the token heap:
allocation of a fresh unlocked cell (the factory), an atomic store through
a reference to a cell that is currently alive (`upgrade`'s acquire,
`run`'s release, `set_lock`), and deallocation of a cell when its last
strong `Rc` drops (root wrapper teardown).  The heap effect of any
sequence of module operations — including the calls a `run` callback makes
— is a chain of these. -/
inductive Step : State → State → Prop where
  | alloc : ∀ s : State, Step s (State.mk (s.tokens ++ [some false]))
  | store : ∀ (s : State) (id : Nat) (b c : Bool),
      s.getLock id = some c → Step s (s.setLock id b)
  | kill : ∀ (s : State) (id : Nat), Step s (s.killToken id)

/-! ### Basic lemmas about the token heap -/

theorem State.getLock_eq_some_iff {s : State} {id : Nat} {b : Bool} :
    s.getLock id = some b ↔ s.tokens[id]? = some (some b) := by
  unfold State.getLock
  rcases hg : s.tokens[id]? with _ | (_ | c) <;> simp [hg]

theorem State.lt_length_of_getLock_eq_some {s : State} {id : Nat} {b : Bool}
    (h : s.getLock id = some b) : id < s.tokens.length := by
  rw [State.getLock_eq_some_iff] at h
  exact (List.getElem?_eq_some.mp h).1

theorem State.getLock_setLock_self {s : State} {id : Nat} (b : Bool)
    (h : id < s.tokens.length) : (s.setLock id b).getLock id = some b := by
  rw [State.getLock_eq_some_iff]
  simp [State.setLock, List.getElem?_set, h]

theorem State.getLock_setLock_ne {s : State} {i j : Nat} (b : Bool)
    (h : i ≠ j) : (s.setLock i b).getLock j = s.getLock j := by
  unfold State.getLock
  simp [State.setLock, List.getElem?_set_ne h]

theorem State.weakUpgrade_eq_some_iff {s : State} {h : Option Nat} {id : Nat} :
    s.weakUpgrade h = some id ↔ h = some id ∧ ∃ b, s.getLock id = some b := by
  unfold State.weakUpgrade
  cases h with
  | none => simp
  | some j =>
    rcases hg : s.getLock j with _ | b <;>
      simp [hg] <;> rintro rfl <;> simp [hg]

theorem State.weakUpgrade_some_getLock {s : State} {id : Nat} {b : Bool}
    (h : s.getLock id = some b) : s.weakUpgrade (some id) = some id := by
  unfold State.weakUpgrade
  simp [h]

theorem State.weakUpgrade_none_of_getLock_none {s : State} {id : Nat}
    (h : s.getLock id = none) : s.weakUpgrade (some id) = none := by
  unfold State.weakUpgrade
  simp [h]

/-! ### Case equations for `upgrade` -/

theorem upgrade_eq_dropped {s : State} {h : TabletPadHandle}
    (hn : s.weakUpgrade h.handle = none) :
    TabletPadHandle.upgrade s h = (.error .AlreadyDropped, s) := by
  unfold TabletPadHandle.upgrade
  rw [hn]

theorem upgrade_eq_borrowed {s : State} {h : TabletPadHandle} {id : Nat}
    (hh : h.handle = some id) (hl : s.getLock id = some true) :
    TabletPadHandle.upgrade s h = (.error .AlreadyBorrowed, s) := by
  unfold TabletPadHandle.upgrade
  rw [hh, State.weakUpgrade_some_getLock hl]
  simp [TabletPad.from_handle, TabletPadHandle.input_device, hh,
        State.weakUpgrade_some_getLock hl, hl]

theorem upgrade_eq_ok {s : State} {h : TabletPadHandle} {id : Nat}
    (hh : h.handle = some id) (hl : s.getLock id = some false) :
    TabletPadHandle.upgrade s h =
      (.ok { liveliness := none, device := h.device, pad := h.pad },
       s.setLock id true) := by
  unfold TabletPadHandle.upgrade
  rw [hh, State.weakUpgrade_some_getLock hl]
  simp [TabletPad.from_handle, TabletPadHandle.input_device, hh,
        State.weakUpgrade_some_getLock hl, hl, InputDevice.clone,
        TabletPadHandle.as_ptr]

/-- C1: upgrading a weak handle yields exactly one of three outcomes, in
order: `AlreadyDropped` when the liveliness token no longer exists;
`AlreadyBorrowed` when the token's lock payload is already `true`; else
the lock is set to `true` and a derived wrapper is returned, with
`liveliness` `none`, the device reference cloned from the handle and the
raw pointer copied.  The three result values are pairwise distinct, so
exactly one disjunct can hold. -/
theorem upgrade_trichotomy (s : State) (h : TabletPadHandle) :
    (s.weakUpgrade h.handle = none ∧
       TabletPadHandle.upgrade s h = (.error .AlreadyDropped, s)) ∨
    (∃ id, h.handle = some id ∧ s.getLock id = some true ∧
       TabletPadHandle.upgrade s h = (.error .AlreadyBorrowed, s)) ∨
    (∃ id, h.handle = some id ∧ s.getLock id = some false ∧
       TabletPadHandle.upgrade s h =
         (.ok { liveliness := none, device := h.device, pad := h.pad },
          s.setLock id true)) := by
  cases hh : h.handle with
  | none =>
    left
    exact ⟨rfl, upgrade_eq_dropped (by rw [hh]; rfl)⟩
  | some id =>
    rcases hg : s.getLock id with _ | (_ | _)
    · left
      refine ⟨State.weakUpgrade_none_of_getLock_none hg, upgrade_eq_dropped ?_⟩
      rw [hh]
      exact State.weakUpgrade_none_of_getLock_none hg
    · right; right
      exact ⟨id, rfl, hg, upgrade_eq_ok hh hg⟩
    · right; left
      exact ⟨id, rfl, hg, upgrade_eq_borrowed hh hg⟩

/-- C5: `weak_reference` on a root wrapper (`liveliness` `some`) returns a
handle observing that wrapper's token, with a copy of the device
reference and the same raw pointer; on a derived wrapper (`liveliness`
`none`) it panics (modelled as `none`) instead of returning a handle. -/
theorem weak_reference_spec (p : TabletPad) :
    (p.liveliness = none → p.weak_reference = none) ∧
    (∀ id, p.liveliness = some id →
       p.weak_reference =
         some { handle := some id, device := p.device, pad := p.pad }) := by
  constructor
  · intro hnone
    unfold TabletPad.weak_reference
    rw [hnone]
  · intro id hid
    unfold TabletPad.weak_reference
    rw [hid]
    rfl

/-- C6: the factory returns `some` wrapper iff the discriminant is
`WLR_INPUT_DEVICE_TABLET_PAD`; any other discriminant gives `(none, s)`
(not an error).  On success the wrapper owns a freshly allocated token
(a slot that did not exist before) whose lock is initialized `false`. -/
theorem new_from_input_device_spec (s : State) (dev : wlr_input_device) :
    ((TabletPad.new_from_input_device s dev).1.isSome = true ↔
        dev.type_ = .WLR_INPUT_DEVICE_TABLET_PAD) ∧
    (dev.type_ ≠ .WLR_INPUT_DEVICE_TABLET_PAD →
        TabletPad.new_from_input_device s dev = (none, s)) ∧
    (dev.type_ = .WLR_INPUT_DEVICE_TABLET_PAD →
        s.getLock s.tokens.length = none ∧
        TabletPad.new_from_input_device s dev =
          (some { liveliness := some s.tokens.length,
                  device := InputDevice.from_ptr dev.addr,
                  pad := dev.tablet_pad },
           State.mk (s.tokens ++ [some false])) ∧
        (State.mk (s.tokens ++ [some false])).getLock s.tokens.length =
          some false) := by
  have hfresh : s.getLock s.tokens.length = none := by
    unfold State.getLock
    rw [List.getElem?_eq_none (Nat.le_refl _)]
  have hafter :
      (State.mk (s.tokens ++ [some false])).getLock s.tokens.length =
        some false := by
    unfold State.getLock
    simp [List.getElem?_concat_length]
  cases htype : dev.type_ <;>
    simp [TabletPad.new_from_input_device, State.alloc, htype, hfresh, hafter]

/-- C7: `input_device()` on an Owning Wrapper is an unconditional field
access; `input_device()` on a Weak Handle returns `Ok` with the device
reference exactly when the liveliness token still upgrades, and fails
with `AlreadyDropped` exactly when it does not. -/
theorem input_device_spec :
    (∀ p : TabletPad, p.input_device = p.device) ∧
    (∀ (s : State) (h : TabletPadHandle),
       (TabletPadHandle.input_device s h = .ok h.device ↔
          (s.weakUpgrade h.handle).isSome = true) ∧
       (TabletPadHandle.input_device s h = .error .AlreadyDropped ↔
          s.weakUpgrade h.handle = none)) := by
  refine ⟨fun p => rfl, fun s h => ?_⟩
  unfold TabletPadHandle.input_device
  rcases hw : s.weakUpgrade h.handle with _ | id <;> simp [hw]

/-- C9: a handle built by `TabletPadHandle::new` (also the `Default`
instance) observes no token (`Weak::new()`) and carries null pointers;
`upgrade`, `run` and `input_device` on it fail with `AlreadyDropped` on
every attempt, leaving the heap untouched — in particular no operation
ever yields a wrapper through which the null raw pointer could be
dereferenced. -/
theorem new_handle_spec :
    (∀ s : State,
       TabletPadHandle.upgrade s TabletPadHandle.new =
         (.error .AlreadyDropped, s)) ∧
    (∀ (R : Type) (s : State) (f : TabletPad → State → Except Nat R × State),
       TabletPadHandle.run s TabletPadHandle.new f =
         (.handleErr .AlreadyDropped, s)) ∧
    (∀ s : State,
       TabletPadHandle.input_device s TabletPadHandle.new =
         .error .AlreadyDropped) ∧
    TabletPadHandle.default = TabletPadHandle.new ∧
    TabletPadHandle.new.handle = none ∧
    TabletPadHandle.new.device = InputDevice.from_ptr 0 ∧
    TabletPadHandle.new.pad = 0 := by
  refine ⟨fun s => rfl, fun R s f => ?_, fun s => rfl, rfl, rfl, rfl, rfl⟩
  unfold TabletPadHandle.run
  rfl

/-! ### Reduction lemmas for `run` -/

theorem run_reduce {R : Type} {s : State} {h : TabletPadHandle} {id : Nat}
    {f : TabletPad → State → Except Nat R × State} {fres : Except Nat R}
    {s2 : State}
    (hh : h.handle = some id) (hl : s.getLock id = some false)
    (hf : f { liveliness := none, device := h.device, pad := h.pad }
            (s.setLock id true) = (fres, s2)) :
    TabletPadHandle.run s h f =
      match s2.getLock id, fres with
      | none, .ok r => (.ok r, s2)
      | none, .error p => (.panicked p, s2)
      | some true, .ok r => (.ok r, s2.setLock id false)
      | some true, .error p => (.panicked p, s2.setLock id false)
      | some false, _ => (.lockStatePanic, s2) := by
  unfold TabletPadHandle.run
  rw [upgrade_eq_ok hh hl]
  simp only [hf, hh]
  unfold State.weakUpgrade
  rcases hg2 : s2.getLock id with _ | (_ | _) <;>
    simp [hg2] <;> cases fres <;> rfl

theorem run_eq_handleErr {R : Type} {s : State} {h : TabletPadHandle}
    {e : HandleErr} {s' : State}
    (hup : TabletPadHandle.upgrade s h = (.error e, s'))
    (f : TabletPad → State → Except Nat R × State) :
    TabletPadHandle.run s h f = (.handleErr e, s') := by
  unfold TabletPadHandle.run
  rw [hup]

/-! ### Dead tokens stay dead -/

theorem State.getLock_eq_none_of_dead {s : State} {id : Nat}
    (h : s.deadToken id) : s.getLock id = none := by
  unfold State.getLock
  rw [h]

theorem Step.preserves_dead {s s' : State} {id : Nat}
    (hstep : Step s s') (hdead : s.deadToken id) : s'.deadToken id := by
  cases hstep with
  | alloc =>
    unfold State.deadToken at *
    have hlt : id < s.tokens.length := (List.getElem?_eq_some.mp hdead).1
    simpa [List.getElem?_append_left hlt] using hdead
  | store j b c hj =>
    have hne : j ≠ id := by
      intro hji
      rw [State.getLock_eq_some_iff, hji] at hj
      unfold State.deadToken at hdead
      rw [hdead] at hj
      exact Option.noConfusion (Option.some.inj hj)
    unfold State.deadToken State.setLock at *
    simpa [List.getElem?_set_ne hne] using hdead
  | kill j =>
    unfold State.deadToken State.killToken at *
    by_cases hji : j = id
    · subst hji
      have hlt : j < s.tokens.length := (List.getElem?_eq_some.mp hdead).1
      simp [List.getElem?_set, hlt]
    · simpa [List.getElem?_set_ne hji] using hdead

theorem steps_preserve_dead {s s' : State} {id : Nat}
    (hsteps : Relation.ReflTransGen Step s s') (hdead : s.deadToken id) :
    s'.deadToken id := by
  induction hsteps with
  | refl => exact hdead
  | tail _ hstep ih => exact hstep.preserves_dead ih

theorem upgrade_eq_dropped_of_dead {s : State} {h : TabletPadHandle}
    {id : Nat} (hh : h.handle = some id) (hdead : s.deadToken id) :
    TabletPadHandle.upgrade s h = (.error .AlreadyDropped, s) := by
  refine upgrade_eq_dropped ?_
  rw [hh]
  exact State.weakUpgrade_none_of_getLock_none
    (State.getLock_eq_none_of_dead hdead)

/-- C2: for a handle whose token is alive and unlocked, `run` upgrades,
invokes the callback on the derived wrapper, and the lock never ends
`true` on any exit path; when the token is alive and the lock intact
after the callback, a normal result is returned as `Ok` and a captured
panic is re-raised with its payload unchanged, in both cases after the
lock is stored back to `false`. -/
theorem run_scoped_contract {R : Type} (s : State) (h : TabletPadHandle)
    (id : Nat) (f : TabletPad → State → Except Nat R × State)
    (hh : h.handle = some id) (hl : s.getLock id = some false) :
    (TabletPadHandle.run s h f).2.getLock id ≠ some true ∧
    (∀ (fres : Except Nat R) (s2 : State),
       f { liveliness := none, device := h.device, pad := h.pad }
           (s.setLock id true) = (fres, s2) →
       s2.getLock id = some true →
         (∀ r, fres = .ok r →
            TabletPadHandle.run s h f = (.ok r, s2.setLock id false)) ∧
         (∀ p, fres = .error p →
            TabletPadHandle.run s h f =
              (.panicked p, s2.setLock id false))) := by
  constructor
  · generalize hf : f { liveliness := none, device := h.device, pad := h.pad }
      (s.setLock id true) = q
    obtain ⟨fres, s2⟩ := q
    rw [run_reduce hh hl hf]
    rcases hg2 : s2.getLock id with _ | (_ | _)
    · cases fres <;> simp [hg2]
    · cases fres <;> simp [hg2]
    · cases fres <;>
        simp [State.getLock_setLock_self false
                (State.lt_length_of_getLock_eq_some hg2)]
  · intro fres s2 hf hg2
    rw [run_reduce hh hl hf, hg2]
    constructor
    · rintro r rfl
      rfl
    · rintro p rfl
      rfl

theorem run_scoped_contract_witness :
    TabletPadHandle.run (State.mk [some false])
        { handle := some 0, device := { device := 5 }, pad := 7 }
        (fun _ s => ((Except.ok 42 : Except Nat Nat), s)) =
      (.ok 42, State.mk [some false]) := by
  have hc := run_scoped_contract (R := Nat) (State.mk [some false])
      { handle := some 0, device := { device := 5 }, pad := 7 } 0
      (fun _ s => ((Except.ok 42 : Except Nat Nat), s)) rfl rfl
  exact (hc.2 (Except.ok 42) (State.mk [some true]) rfl rfl).1 42 rfl

/-- C10: if the liveliness token no longer exists when `run`'s callback
finishes (e.g. the callback dropped the root wrapper), `run` skips the
lock sanity-check and the lock release — the heap is exactly as the
callback left it — and still returns the callback's normal result as
`Ok`, or re-raises its captured panic, rather than reporting an error. -/
theorem run_dead_token_skips_release {R : Type} (s : State)
    (h : TabletPadHandle) (id : Nat)
    (f : TabletPad → State → Except Nat R × State)
    (fres : Except Nat R) (s2 : State)
    (hh : h.handle = some id) (hl : s.getLock id = some false)
    (hf : f { liveliness := none, device := h.device, pad := h.pad }
            (s.setLock id true) = (fres, s2))
    (hdead : s2.getLock id = none) :
    TabletPadHandle.run s h f =
      ((match fres with
        | .ok r => RunResult.ok r
        | .error p => RunResult.panicked p), s2) := by
  rw [run_reduce hh hl hf]
  cases fres <;> simp [hdead]

theorem run_dead_token_skips_release_witness :
    TabletPadHandle.run (State.mk [some false])
        { handle := some 0, device := { device := 5 }, pad := 7 }
        (fun _ s => ((Except.ok 1 : Except Nat Nat), s.killToken 0)) =
      (.ok 1, State.mk [none]) := by
  exact run_dead_token_skips_release (State.mk [some false])
      { handle := some 0, device := { device := 5 }, pad := 7 } 0
      (fun _ s => ((Except.ok 1 : Except Nat Nat), s.killToken 0))
      (Except.ok 1) (State.mk [none]) rfl rfl rfl rfl

/-- C8: manually upgrading a handle and then dropping the resulting
derived wrapper, outside the `run` protocol, leaves the lock stuck at
`true`: the derived wrapper's drop releases nothing (the heap is
unchanged), and from then on every upgrade attempt — and every `run` —
through any handle to that token fails with `AlreadyBorrowed`, each
attempt leaving the heap unchanged, for as long as the token lives. -/
theorem manual_upgrade_drop_leaks_lock (s : State) (h : TabletPadHandle)
    (id : Nat) (hh : h.handle = some id) (hl : s.getLock id = some false) :
    TabletPadHandle.upgrade s h =
      (.ok { liveliness := none, device := h.device, pad := h.pad },
       s.setLock id true) ∧
    TabletPad.drop (s.setLock id true)
        { liveliness := none, device := h.device, pad := h.pad } =
      s.setLock id true ∧
    (s.setLock id true).getLock id = some true ∧
    (∀ h2 : TabletPadHandle, h2.handle = some id →
       TabletPadHandle.upgrade (s.setLock id true) h2 =
         (.error .AlreadyBorrowed, s.setLock id true) ∧
       (∀ (R : Type) (f : TabletPad → State → Except Nat R × State),
          TabletPadHandle.run (s.setLock id true) h2 f =
            (.handleErr .AlreadyBorrowed, s.setLock id true))) := by
  have hlock : (s.setLock id true).getLock id = some true :=
    State.getLock_setLock_self true (State.lt_length_of_getLock_eq_some hl)
  refine ⟨upgrade_eq_ok hh hl, rfl, hlock, ?_⟩
  intro h2 hh2
  have hup2 := upgrade_eq_borrowed hh2 hlock
  exact ⟨hup2, fun R f => run_eq_handleErr hup2 f⟩

theorem manual_upgrade_drop_leaks_lock_witness :
    TabletPadHandle.upgrade (State.mk [some true])
        { handle := some 0, device := { device := 5 }, pad := 7 } =
      (.error .AlreadyBorrowed, State.mk [some true]) := by
  have hc := manual_upgrade_drop_leaks_lock (State.mk [some false])
      { handle := some 0, device := { device := 5 }, pad := 7 } 0 rfl rfl
  exact (hc.2.2.2 { handle := some 0, device := { device := 5 }, pad := 7 }
    rfl).1

/-- C3: once the root wrapper over a token is dropped, a handle derived
from it fails every upgrade attempt with `AlreadyDropped`, with the heap
unchanged, in every later state reachable by any sequence of the
module's heap mutations — the failure is idempotent and permanent. -/
theorem dropped_root_dead_forever (s : State) (p : TabletPad)
    (h : TabletPadHandle) (id : Nat) (c : Bool)
    (hroot : p.liveliness = some id) (halive : s.getLock id = some c)
    (hw : p.weak_reference = some h) (s' : State)
    (hsteps : Relation.ReflTransGen Step (TabletPad.drop s p) s') :
    TabletPadHandle.upgrade s' h = (.error .AlreadyDropped, s') := by
  have hh : h.handle = some id := by
    unfold TabletPad.weak_reference at hw
    rw [hroot] at hw
    cases Option.some.inj hw
    rfl
  have hdead0 : (TabletPad.drop s p).deadToken id := by
    unfold TabletPad.drop
    rw [hroot]
    unfold State.killToken State.deadToken
    simp [List.getElem?_set, State.lt_length_of_getLock_eq_some halive]
  exact upgrade_eq_dropped_of_dead hh (steps_preserve_dead hsteps hdead0)

theorem dropped_root_dead_forever_witness :
    TabletPadHandle.upgrade (State.mk [none, some false])
        { handle := some 0, device := { device := 5 }, pad := 7 } =
      (.error .AlreadyDropped, State.mk [none, some false]) := by
  exact dropped_root_dead_forever (State.mk [some false])
      { liveliness := some 0, device := { device := 5 }, pad := 7 }
      { handle := some 0, device := { device := 5 }, pad := 7 } 0 false
      rfl rfl rfl (State.mk [none, some false])
      (Relation.ReflTransGen.single (Step.alloc (State.mk [none])))

/-- C4: the root wrapper's lock flag is `false` outside an active scoped
operation: the factory initializes every fresh token's lock to `false`
and never raises an existing lock; `drop` never raises a lock; `upgrade`
is the only operation that sets a lock `true`, and when it fails it
leaves the heap unchanged; whenever `run` returns anything other than a
propagated upgrade error, the handle's token — if still alive — ends
with its lock `false`; and a `run` that returns an upgrade error leaves
the heap unchanged. -/
theorem root_lock_false_invariant :
    (∀ (s : State) (dev : wlr_input_device) (w : TabletPad) (s' : State),
       TabletPad.new_from_input_device s dev = (some w, s') →
       ∃ id, w.liveliness = some id ∧ s'.getLock id = some false) ∧
    (∀ (s : State) (dev : wlr_input_device) (id : Nat),
       (TabletPad.new_from_input_device s dev).2.getLock id = some true →
       s.getLock id = some true) ∧
    (∀ (s : State) (p : TabletPad) (id : Nat),
       (TabletPad.drop s p).getLock id = some true →
       s.getLock id = some true) ∧
    (∀ (s : State) (h : TabletPadHandle) (e : HandleErr) (s' : State),
       TabletPadHandle.upgrade s h = (.error e, s') → s' = s) ∧
    (∀ (R : Type) (s : State) (h : TabletPadHandle) (id : Nat)
       (f : TabletPad → State → Except Nat R × State)
       (res : RunResult R) (s' : State),
       h.handle = some id →
       TabletPadHandle.run s h f = (res, s') →
       (∀ e, res ≠ RunResult.handleErr e) →
       (s'.getLock id).isSome = true →
       s'.getLock id = some false) ∧
    (∀ (R : Type) (s : State) (h : TabletPadHandle)
       (f : TabletPad → State → Except Nat R × State)
       (e : HandleErr) (s' : State),
       TabletPadHandle.run s h f = (.handleErr e, s') → s' = s) := by
  refine ⟨?_, ?_, ?_, ?_, ?_, ?_⟩
  · -- factory: fresh token starts unlocked
    intro s dev w s' heq
    cases htype : dev.type_ <;>
      simp only [TabletPad.new_from_input_device, htype, State.alloc,
                 Prod.mk.injEq, Option.some.injEq, reduceCtorEq,
                 false_and] at heq
    obtain ⟨rfl, rfl⟩ := heq
    refine ⟨s.tokens.length, rfl, ?_⟩
    rw [State.getLock_eq_some_iff]
    exact List.getElem?_concat_length _ _
  · -- factory: never raises an existing lock
    intro s dev id htrue
    cases htype : dev.type_ <;>
      simp only [TabletPad.new_from_input_device, htype, State.alloc]
        at htrue <;> try exact htrue
    rw [State.getLock_eq_some_iff] at htrue ⊢
    by_cases hid : id < s.tokens.length
    · rwa [List.getElem?_append_left hid] at htrue
    · exfalso
      rw [List.getElem?_append] at htrue
      simp only [hid, if_false] at htrue
      rcases hd : id - s.tokens.length with _ | k <;>
        simp [hd] at htrue
  · -- drop: never raises a lock
    intro s p id htrue
    cases hliv : p.liveliness with
    | none =>
      simpa only [TabletPad.drop, hliv] using htrue
    | some j =>
      simp only [TabletPad.drop, hliv] at htrue
      rw [State.getLock_eq_some_iff] at htrue ⊢
      unfold State.killToken at htrue
      by_cases hji : j = id
      · rw [hji] at htrue
        rcases Nat.lt_or_ge id s.tokens.length with hlt | hge
        · simp [List.getElem?_set, hlt] at htrue
        · simp [List.getElem?_set, Nat.not_lt.mpr hge] at htrue
      · rwa [List.getElem?_set_ne hji] at htrue
  · -- upgrade on failure leaves the heap unchanged
    intro s h e s' hup
    cases hh : h.handle with
    | none =>
      rw [upgrade_eq_dropped (by rw [hh]; rfl)] at hup
      exact (congrArg Prod.snd hup).symm
    | some id =>
      rcases hg : s.getLock id with _ | (_ | _)
      · rw [upgrade_eq_dropped
          (by rw [hh]; exact State.weakUpgrade_none_of_getLock_none hg)]
          at hup
        exact (congrArg Prod.snd hup).symm
      · rw [upgrade_eq_ok hh hg] at hup
        simp at hup
      · rw [upgrade_eq_borrowed hh hg] at hup
        exact (congrArg Prod.snd hup).symm
  · -- run: on every non-error return the lock ends false (if alive)
    intro R s h id f res s' hh hrun hres hsome
    rcases hg : s.getLock id with _ | (_ | _)
    · have hup := upgrade_eq_dropped
        (show s.weakUpgrade h.handle = none by
          rw [hh]; exact State.weakUpgrade_none_of_getLock_none hg)
      rw [run_eq_handleErr hup f] at hrun
      exact absurd (congrArg Prod.fst hrun).symm (hres _)
    · generalize hf : f { liveliness := none, device := h.device, pad := h.pad } (s.setLock id true) = q at hrun
      obtain ⟨fres, s2⟩ := q
      rw [run_reduce hh hg hf] at hrun
      rcases hg2 : s2.getLock id with _ | (_ | _) <;> cases fres <;>
        simp only [hg2] at hrun
      · cases hrun
        rw [hg2] at hsome
        simp at hsome
      · cases hrun
        rw [hg2] at hsome
        simp at hsome
      · cases hrun
        exact hg2
      · cases hrun
        exact hg2
      · cases hrun
        exact State.getLock_setLock_self false
          (State.lt_length_of_getLock_eq_some hg2)
      · cases hrun
        exact State.getLock_setLock_self false
          (State.lt_length_of_getLock_eq_some hg2)
    · have hup := upgrade_eq_borrowed hh hg
      rw [run_eq_handleErr hup f] at hrun
      exact absurd (congrArg Prod.fst hrun).symm (hres _)
  · -- run returning an upgrade error leaves the heap unchanged
    intro R s h f e s' hrun
    cases hh : h.handle with
    | none =>
      rw [run_eq_handleErr (upgrade_eq_dropped (by rw [hh]; rfl)) f] at hrun
      exact (congrArg Prod.snd hrun).symm
    | some id =>
      rcases hg : s.getLock id with _ | (_ | _)
      · rw [run_eq_handleErr (upgrade_eq_dropped
          (by rw [hh]; exact State.weakUpgrade_none_of_getLock_none hg)) f]
          at hrun
        exact (congrArg Prod.snd hrun).symm
      · generalize hf : f { liveliness := none, device := h.device, pad := h.pad } (s.setLock id true) = q at hrun
        obtain ⟨fres, s2⟩ := q
        rw [run_reduce hh hg hf] at hrun
        rcases hg2 : s2.getLock id with _ | (_ | _) <;> cases fres <;>
          simp [hg2] at hrun
      · rw [run_eq_handleErr (upgrade_eq_borrowed hh hg) f] at hrun
        exact (congrArg Prod.snd hrun).symm
